import Mathlib

/-!
# Hub registration of a selenoid node (`hub.go`)

A shallow embedding of `hub.go`: the registration builder
(`generateCapabilities`, `createRegistration`) and the heartbeat loop
(`hubRegistration`), together with the parts of the Go standard library the
file calls (`net.SplitHostPort`, `strconv.Atoi`, `bytes.Buffer`, the
`encoding/json` decoder applied to a `**HubProxyInfo`).

Conventions.
* Go `string` is `String`; byte searches for the ASCII bytes `:`, `[`, `]`
  are character searches (UTF-8 never uses an ASCII byte inside a multi-byte
  sequence), and `len(s)` is `String.utf8ByteSize`.
* Go `int` is `Int`; the only place where the 64-bit width matters is
  `strconv.Atoi`, which is modelled with its explicit range checks.
* A Go `map` is the list of its entries in the order in which `range` visits
  them; a well-formed map has pairwise distinct keys.  Go leaves the order
  unspecified, so theorems quantify over every such list.
* Values that come from outside the file (`runtime.GOOS`, the address
  returned by `GetOutboundIP`, the package variables `hubAddress` and
  `listen`, the JSON encoder) are parameters.
-/

namespace Hub

/-! ## `net.SplitHostPort` -/

/-- The `Err` strings of the `*net.AddrError` values `SplitHostPort` returns. -/
inductive AddrError where
  | missingPort
  | tooManyColons
  | missingCloseBracket
  | unexpectedOpenBracket
  | unexpectedCloseBracket
deriving DecidableEq, Repr

/-- Index of the first `c` in `s` (`bytealg.IndexByteString`), `none` for `-1`. -/
def indexByte : List Char → Char → Option Nat
  | [], _ => none
  | x :: xs, c => if x = c then some 0 else (indexByte xs c).map (· + 1)

/-- Index of the last `c` in `s` (`bytealg.LastIndexByteString`), `none` for `-1`. -/
def lastIndexByte : List Char → Char → Option Nat
  | [], _ => none
  | x :: xs, c =>
    match lastIndexByte xs c with
    | some i => some (i + 1)
    | none => if x = c then some 0 else none

/-- The tail of `net.SplitHostPort`: the two bracket checks on `hostport[j:]`
and `hostport[k:]`, then `port = hostport[i+1:]`. -/
def splitHostPortFinish (s : List Char) (host : List Char) (i j k : Nat) :
    String × String × Option AddrError :=
  if (indexByte (s.drop j) '[').isSome then ("", "", some .unexpectedOpenBracket)
  else if (indexByte (s.drop k) ']').isSome then ("", "", some .unexpectedCloseBracket)
  else (String.mk host, String.mk (s.drop (i + 1)), none)

/-- Go's `net.SplitHostPort(hostport) (host, port string, err error)`. -/
def SplitHostPort (hostport : String) : String × String × Option AddrError :=
  let s := hostport.data
  match lastIndexByte s ':' with
  | none => ("", "", some .missingPort)
  | some i =>
    if s.head? = some '[' then
      match indexByte s ']' with
      | none => ("", "", some .missingCloseBracket)
      | some e =>
        if e + 1 = s.length then ("", "", some .missingPort)
        else if e + 1 = i then
          splitHostPortFinish s ((s.take e).drop 1) i 1 (e + 1)
        else if s.get? (e + 1) = some ':' then ("", "", some .tooManyColons)
        else ("", "", some .missingPort)
    else
      let host := s.take i
      if (indexByte host ':').isSome then ("", "", some .tooManyColons)
      else splitHostPortFinish s host i 0 0

/-! ## `strconv.Atoi` -/

/-- The two `strconv` error kinds (`ErrSyntax`, `ErrRange`). -/
inductive NumError where
  | ErrSyntax
  | ErrRange
deriving DecidableEq, Repr

/-- Is `c` one of the bytes `'0'..'9'`. -/
def isDigit (c : Char) : Bool := decide ('0'.toNat ≤ c.toNat) && decide (c.toNat ≤ '9'.toNat)

/-- The value `c - '0'` of a digit byte. -/
def digitVal (c : Char) : Nat := c.toNat - '0'.toNat

/-- The largest `uint64`. -/
def maxUint64 : Nat := 2 ^ 64 - 1

/-- The digit loop of `strconv.ParseUint(s, 10, 0)`: `n` is a `uint64`, the
loop stops with `ErrSyntax` at the first non-digit and with `ErrRange` (value
`maxUint64`) as soon as the next digit would overflow. -/
def parseUintLoop : List Char → Nat → Nat × Option NumError
  | [], n => (n, none)
  | c :: cs, n =>
    if isDigit c then
      if n ≥ maxUint64 / 10 + 1 then (maxUint64, some .ErrRange)
      else
        let n10 := n * 10
        let n1 := (n10 + digitVal c) % 2 ^ 64
        if n1 < n10 ∨ n1 > maxUint64 then (maxUint64, some .ErrRange)
        else parseUintLoop cs n1
    else (0, some .ErrSyntax)

/-- Go's `strconv.ParseUint(s, 10, 0)` on a 64-bit platform. -/
def ParseUint (s : List Char) : Nat × Option NumError :=
  match s with
  | [] => (0, some .ErrSyntax)
  | _ :: _ => parseUintLoop s 0

/-- Go's `strconv.ParseInt(s, 10, 0)` on a 64-bit platform: a range error
returns the nearest of `-2^63` and `2^63 - 1`. -/
def ParseInt (s : List Char) : Int × Option NumError :=
  match s with
  | [] => (0, some .ErrSyntax)
  | c :: rest =>
    let neg : Bool := decide (c = '-')
    let body := if c = '+' ∨ c = '-' then rest else s
    match ParseUint body with
    | (_, some .ErrSyntax) => (0, some .ErrSyntax)
    | (un, _) =>
      if !neg && decide (un ≥ 2 ^ 63) then ((2 : Int) ^ 63 - 1, some .ErrRange)
      else if neg && decide (un > 2 ^ 63) then (-(2 : Int) ^ 63, some .ErrRange)
      else (if neg then -(un : Int) else (un : Int), none)

/-- The digit loop of the fast path of `strconv.Atoi`: `none` at the first
byte that is not a digit. -/
def atoiFastLoop : List Char → Nat → Option Nat
  | [], n => some n
  | c :: cs, n => if isDigit c then atoiFastLoop cs (n * 10 + digitVal c) else none

/-- Go's `strconv.Atoi(s) (int, error)` on a 64-bit platform: the fast path
for `0 < len(s) < 19`, `ParseInt(s, 10, 0)` otherwise. -/
def Atoi (s : String) : Int × Option NumError :=
  let sLen := s.utf8ByteSize
  if 0 < sLen ∧ sLen < 19 then
    match s.data with
    | [] => (0, some .ErrSyntax)
    | c :: rest =>
      let signed : Bool := decide (c = '-' ∨ c = '+')
      let body := if signed then rest else c :: rest
      if signed && body.isEmpty then (0, some .ErrSyntax)
      else
        match atoiFastLoop body 0 with
        | none => (0, some .ErrSyntax)
        | some n => (if c = '-' then -(n : Int) else (n : Int), none)
  else ParseInt s.data

/-! ## Data model -/

namespace config

/-- The catalog `config.Browsers` (`map[string]map[string]Quota`) as the list
of its entries in `range` order: each browser with the keys of its version
map, also in `range` order.  The quota stored under a version is never read
by `hub.go`. -/
abbrev Browsers := List (String × List String)

/-- The fields of `config.State` that `hub.go` reads. -/
structure State where
  Total : Int
  Browsers : Browsers
deriving DecidableEq, Repr

end config

/-- Go struct `RegistrationInfo`. -/
structure RegistrationInfo where
  ListenAddress : String
  Timeout : Int
  State : config.State
deriving DecidableEq, Repr

/-- Go struct `HubCapabilities`. -/
structure HubCapabilities where
  Browser : String
  Version : String
  MaxInstances : Int
  Platform : String
  PlatformName : String
  SeleniumProtocol : String
deriving DecidableEq, Repr

/-- Go struct `NodeConfig`. -/
structure NodeConfig where
  BrowserTimeout : Int
  Capabilities : List HubCapabilities
  Debug : Bool
  Host : String
  MaxSession : Int
  ID : String
  Port : Int
  RemoteHost : String
  Proxy : String
  NodeStatusCheckTimeout : Int
  UnregisterIfStillDownAfter : Int
deriving DecidableEq, Repr

/-- Go struct `RegistrationRequest`. -/
structure RegistrationRequest where
  Name : String
  Description : String
  Class : String
  Configuration : NodeConfig
deriving DecidableEq, Repr

/-! ## The registration builder -/

/-- The entry appended by the inner loop body of `generateCapabilities`. -/
def capabilityEntry (GOOS : String) (total : Int) (browser ver : String) : HubCapabilities :=
  { Browser := browser
    Version := ver
    MaxInstances := total
    Platform := GOOS
    PlatformName := GOOS
    SeleniumProtocol := "WebDriver" }

/-- Go `generateCapabilities`: the two nested `range` loops append one entry
per visited (browser, version) pair. -/
def generateCapabilities (GOOS : String) (ri : RegistrationInfo) : List HubCapabilities :=
  ri.State.Browsers.foldl
    (fun capabilities bv =>
      bv.2.foldl
        (fun capabilities ver =>
          capabilities ++ [capabilityEntry GOOS ri.State.Total bv.1 ver])
        capabilities)
    []

/-- Go `strings.Join(elems, sep)`. -/
def stringsJoin : List String → String → String
  | [], _ => ""
  | [x], _ => x
  | x :: y :: rest, sep => x ++ sep ++ stringsJoin (y :: rest) sep

/-- Go `createRegistration`; `outboundIP` is `GetOutboundIP().String()`.  Both
ignored errors are dropped exactly as the source drops them. -/
def createRegistration (GOOS outboundIP : String) (ri : RegistrationInfo) :
    RegistrationRequest :=
  let localAddress := outboundIP
  let port := (SplitHostPort ri.ListenAddress).2.1
  let portInt := (Atoi port).1
  { Name := "selenoid-registration"
    Description := "selenoid node"
    Class := "org.openqa.grid.common.RegistrationRequest"
    Configuration :=
      { BrowserTimeout := ri.Timeout
        Capabilities := generateCapabilities GOOS ri
        Debug := false
        MaxSession := ri.State.Total
        Host := localAddress
        Port := portInt
        RemoteHost := "http://" ++ stringsJoin [localAddress, port] ":"
        ID := stringsJoin [localAddress, port] ":"
        Proxy := "org.openqa.grid.selenium.proxy.DefaultRemoteProxy"
        NodeStatusCheckTimeout := 5000
        UnregisterIfStillDownAfter := 60000 } }

/-! ## `encoding/json` applied to the status reply -/

/-- Go struct `HubProxyInfo`. -/
structure HubProxyInfo where
  Message : String
  Success : Bool
deriving DecidableEq, Repr

/-- A JSON value, as delimited by the scanner of `encoding/json`. -/
inductive Json where
  | null
  | bool (b : Bool)
  | number (literal : String)
  | string (s : String)
  | array (elems : List Json)
  | object (members : List (String × Json))

/-- Case folding of `encoding/json` for keys that are compared with ASCII
field names: ASCII letters fold to upper case, and the two non-ASCII runes
whose simple fold orbit contains an ASCII letter (U+017F with `S`, U+212A
with `K`) fold to that letter. -/
def foldRune (c : Char) : Char :=
  if 'a'.toNat ≤ c.toNat ∧ c.toNat ≤ 'z'.toNat then Char.ofNat (c.toNat - 32)
  else if c.toNat = 0x17F then 'S'
  else if c.toNat = 0x212A then 'K'
  else c

/-- Folded form of a key (`foldName`). -/
def foldName (s : String) : List Char := s.data.map foldRune

/-- The two exported fields of `HubProxyInfo`, by their `json` tags. -/
inductive ReplyField where
  | Message
  | Success
deriving DecidableEq, Repr

/-- Field lookup of the decoder: an exact match of the tag, else a match
under case folding. -/
def findField (key : String) : Option ReplyField :=
  if key = "msg" then some .Message
  else if key = "success" then some .Success
  else if foldName key = foldName "msg" then some .Message
  else if foldName key = foldName "success" then some .Success
  else none

/-- Storing one object member into the struct: a value of the right JSON
type is stored, `null` is a no-op, any other value leaves the field as it is
and records an `UnmarshalTypeError` (the decoder then goes on with the next
member).  The Boolean is "an error has been saved". -/
def storeMember (acc : HubProxyInfo × Bool) (m : String × Json) : HubProxyInfo × Bool :=
  match findField m.1 with
  | none => acc
  | some .Message =>
    match m.2 with
    | .string s => ({ acc.1 with Message := s }, acc.2)
    | .null => acc
    | _ => (acc.1, true)
  | some .Success =>
    match m.2 with
    | .bool b => ({ acc.1 with Success := b }, acc.2)
    | .null => acc
    | _ => (acc.1, true)

/-- Go `json.NewDecoder(body).Decode(&pi)` with `pi : *HubProxyInfo`, so that
the target is a `**HubProxyInfo`.  `body` is the first JSON value of the
stream, `none` when the stream does not start with a well-formed value (a
syntax error or EOF: nothing is stored).  The result is the new value of the
pointer `pi` (`none` is `nil`) and whether `Decode` returned an error.
* `null` sets the pointer `pi` itself to `nil` and is not an error;
* an object is stored member by member into the struct `pi` points to
  (allocated first if `pi` is `nil`);
* any other value is an `UnmarshalTypeError` and stores nothing. -/
def Decode (body : Option Json) (pi : Option HubProxyInfo) : Option HubProxyInfo × Bool :=
  match body with
  | none => (pi, true)
  | some .null => (none, false)
  | some (.object members) =>
    let r := members.foldl storeMember (pi.getD { Message := "", Success := false }, false)
    (some r.1, r.2)
  | some _ => (some (pi.getD { Message := "", Success := false }), true)

/-! ## The heartbeat loop -/

/-- Contents of a byte buffer. -/
abbrev Bytes := List UInt8

/-- An HTTP request as handed to the client: method, URL, the headers set by
`hub.go`, and the bytes the request body holds when the request is built. -/
structure Request where
  Method : String
  URL : String
  Header : List (String × String)
  Body : Bytes
deriving DecidableEq, Repr

/-- Outcome of `client.Get`: an error, or a response with its status code and
the first JSON value of its body (`none` if the body does not start with a
well-formed JSON value). -/
inductive GetResult where
  | error
  | response (StatusCode : Nat) (body : Option Json)

/-- What the environment supplies for one tick: the outcome of the status
GET and, should the cycle call `client.Do`, how many bytes the transport
reads from the request body (a request that is sent completely reads all of
them, one that fails before the body is written reads none). -/
structure Tick where
  get : GetResult
  postRead : Nat

/-- The two wake-ups of the `select`. -/
inductive Event where
  | tick (t : Tick)
  | sig

/-- The variables of `hubRegistration` that change while the loop runs: the
pointer `pi` (`none` is `nil`) and the unread bytes of the buffer `b`. -/
structure LoopState where
  pi : Option HubProxyInfo
  b : Bytes
deriving DecidableEq, Repr

/-- Control state of `hubRegistration`: waiting in the `select` (RUNNING),
returned (STOPPED), or terminated by a run-time panic. -/
inductive Control where
  | RUNNING (s : LoopState)
  | STOPPED
  | PANICKED
deriving DecidableEq, Repr

/-- The value the status query passes as its `id` parameter: the last two
arguments of the `Sprintf`, `localAddress` and `listen`, one after the other. -/
def statusQueryID (localAddress listen : String) : String :=
  localAddress ++ listen

/-- The URL of the status query, `fmt.Sprintf("http://%s/grid/api/proxy?id=%s%s",
hubAddress, localAddress, listen)`. -/
def statusURL (hubAddress localAddress listen : String) : String :=
  "http://" ++ hubAddress ++ "/grid/api/proxy?id=" ++ statusQueryID localAddress listen

/-- The request `client.Get` issues. -/
def statusRequest (hubAddress localAddress listen : String) : Request :=
  { Method := "GET", URL := statusURL hubAddress localAddress listen, Header := [], Body := [] }

/-- The request built by `http.NewRequest("POST", ..., b)` and the two
`Header.Set` calls: its body is the buffer `b`, that is, the bytes of `b` not
read so far. -/
def registerRequest (hubAddress : String) (b : Bytes) : Request :=
  { Method := "POST"
    URL := "http://" ++ hubAddress ++ "/grid/register"
    Header := [("User-Agent", "selenoid"), ("Content-Type", "application/json")]
    Body := b }

/-- One pass through `case <-ticker.C:`.  Returns the requests issued, in
order, and the state in which the loop goes back to the `select`; `none` is
the nil-pointer panic of `pi.Success` when `pi` is `nil`. -/
def cycle (hubAddress localAddress listen : String) (s : LoopState) (t : Tick) :
    List Request × Option LoopState :=
  let get := statusRequest hubAddress localAddress listen
  match t.get with
  | .error => ([get], some s)
  | .response StatusCode body =>
    if StatusCode = 200 then
      match (Decode body s.pi).1 with
      | none => ([get], none)
      | some r =>
        if !r.Success then
          ([get, registerRequest hubAddress s.b],
            some { pi := some r, b := s.b.drop t.postRead })
        else ([get], some { pi := some r, b := s.b })
    else ([get], some s)

/-- One wake-up of the `select`: a tick runs a cycle, a signal stops the
ticker and returns; once the function has returned or the process has
panicked nothing more happens. -/
def step (hubAddress localAddress listen : String) :
    Control → Event → List Request × Control
  | .RUNNING s, .tick t =>
    match cycle hubAddress localAddress listen s t with
    | (reqs, some s') => (reqs, .RUNNING s')
    | (reqs, none) => (reqs, .PANICKED)
  | .RUNNING _, .sig => ([], .STOPPED)
  | .STOPPED, _ => ([], .STOPPED)
  | .PANICKED, _ => ([], .PANICKED)

/-- The `for { select { ... } }` loop over the wake-ups the environment
delivers: the requests issued, in order, and the control state afterwards. -/
def run (hubAddress localAddress listen : String) :
    Control → List Event → List Request × Control
  | c, [] => ([], c)
  | c, e :: es =>
    let r := step hubAddress localAddress listen c e
    let rest := run hubAddress localAddress listen r.2 es
    (r.1 ++ rest.1, rest.2)

/-- The state in which `hubRegistration` enters its loop: `b` holds the output
of `json.NewEncoder(b).Encode(createRegistration(ri))` (`encode` is that
encoder) and `pi` points to a zero `HubProxyInfo`. -/
def initialState (encode : RegistrationRequest → Bytes) (GOOS outboundIP : String)
    (ri : RegistrationInfo) : LoopState :=
  { pi := some { Message := "", Success := false }
    b := encode (createRegistration GOOS outboundIP ri) }

/-- Go `hubRegistration(ri)` run against the wake-ups `events`.  `hubAddress`
and `listen` are the package variables of those names, `outboundIP` is what
`GetOutboundIP().String()` returns. -/
def hubRegistration (encode : RegistrationRequest → Bytes)
    (GOOS outboundIP hubAddress listen : String) (ri : RegistrationInfo)
    (events : List Event) : List Request × Control :=
  let localAddress := outboundIP
  run hubAddress localAddress listen
    (.RUNNING (initialState encode GOOS outboundIP ri)) events

/-! ## Specification-side notions and example inputs -/

/-- The catalog of the end-to-end scenario of the specification. -/
def scenarioInfo : RegistrationInfo :=
  { ListenAddress := "0.0.0.0:4444"
    Timeout := 60
    State := { Total := 5, Browsers := [("chrome", ["90", "91"]), ("firefox", ["88"])] } }

/-- The number denoted by the decimal digits `ds` appended to the number `n`. -/
def decimalFrom (n : Nat) (ds : List Char) : Nat :=
  ds.foldl (fun n c => n * 10 + digitVal c) n

/-- The string without its leading sign, if it has one. -/
def unsignedPart (s : List Char) : List Char :=
  match s with
  | [] => []
  | c :: rest => if c = '+' ∨ c = '-' then rest else c :: rest

/-- A decimal integer: an optional sign followed by at least one decimal digit. -/
def isDecimalInteger (s : String) : Bool :=
  !(unsignedPart s.data).isEmpty && (unsignedPart s.data).all isDigit

/-- The integer a decimal integer denotes. -/
def integerValue (s : String) : Int :=
  if s.data.head? = some '-' then -(decimalFrom 0 (unsignedPart s.data) : Int)
  else (decimalFrom 0 (unsignedPart s.data) : Int)

/-- Registration info with an empty catalog and the given listen address. -/
def infoListening (listenAddress : String) : RegistrationInfo :=
  { ListenAddress := listenAddress, Timeout := 60, State := { Total := 5, Browsers := [] } }

/-- A status reply `{"msg": m, "success": b}` as the hub sends it. -/
def hubReply (m : String) (b : Bool) : Option Json :=
  some (.object [("msg", .string m), ("success", .bool b)])

/-- The flag one object member stores into `Success`: the value of a Boolean
member whose key selects that field, `none` for every other member. -/
def memberSuccess (m : String × Json) : Option Bool :=
  match findField m.1, m.2 with
  | some .Success, .bool b => some b
  | _, _ => none

/-- The text one object member stores into `Message`: the value of a string
member whose key selects that field, `none` for every other member. -/
def memberMessage (m : String × Json) : Option String :=
  match findField m.1, m.2 with
  | some .Message, .string s => some s
  | _, _ => none

/-- A member is ill-typed when its key selects a field and its value is
neither `null` nor of the JSON type of that field. -/
def memberIllTyped (m : String × Json) : Bool :=
  match findField m.1, m.2 with
  | none, _ => false
  | some _, .null => false
  | some .Message, .string _ => false
  | some .Success, .bool _ => false
  | some _, _ => true

/-- The value of the last Boolean `success` member of an object, if it has one. -/
def lastSuccess : List (String × Json) → Option Bool
  | [] => none
  | m :: ms =>
    match lastSuccess ms with
    | some b => some b
    | none => memberSuccess m

/-- The value of the last string `msg` member of an object, if it has one. -/
def lastMessage : List (String × Json) → Option String
  | [] => none
  | m :: ms =>
    match lastMessage ms with
    | some s => some s
    | none => memberMessage m

/-- The `success` flag a response body carries: that of the last Boolean
`success` member when the body is a JSON object, `none` otherwise. -/
def bodySuccess (body : Option Json) : Option Bool :=
  match body with
  | some (.object members) => lastSuccess members
  | _ => none

/-- The `msg` text a response body carries: that of the last string `msg`
member when the body is a JSON object, `none` otherwise. -/
def bodyMessage (body : Option Json) : Option String :=
  match body with
  | some (.object members) => lastMessage members
  | _ => none

/-- The `success` flag a tick delivers to the loop: that of the body of a 200
response, `none` for an error and for every other status code. -/
def tickSuccess (t : Tick) : Option Bool :=
  match t.get with
  | .error => none
  | .response StatusCode body => if StatusCode = 200 then bodySuccess body else none

/-- The reply a body decodes to on its own: `Decode` into a pointer to a zero
`HubProxyInfo`, as `pi` is before the first cycle. -/
def decodeFresh (body : Option Json) : Option HubProxyInfo × Bool :=
  Decode body (some { Message := "", Success := false })

/-! ## Facts about `generateCapabilities` -/

/-- The nested loops of `generateCapabilities` compute the concatenation, over
the catalog entries in visiting order, of one entry per version. -/
theorem generateCapabilities_eq_flatMap (GOOS : String) (ri : RegistrationInfo) :
    generateCapabilities GOOS ri =
      ri.State.Browsers.flatMap
        (fun bv => bv.2.map (capabilityEntry GOOS ri.State.Total bv.1)) := by
  unfold generateCapabilities
  have inner : ∀ (b : String) (vs : List String) (acc : List HubCapabilities),
      vs.foldl (fun capabilities ver =>
          capabilities ++ [capabilityEntry GOOS ri.State.Total b ver]) acc =
        acc ++ vs.map (capabilityEntry GOOS ri.State.Total b) := by
    intro b vs
    induction vs with
    | nil => intro acc; simp
    | cons v vs ih => intro acc; simp [List.foldl_cons, ih]
  have outer : ∀ (bs : config.Browsers) (acc : List HubCapabilities),
      bs.foldl (fun capabilities bv =>
          bv.2.foldl (fun capabilities ver =>
            capabilities ++ [capabilityEntry GOOS ri.State.Total bv.1 ver]) capabilities) acc =
        acc ++ bs.flatMap (fun bv => bv.2.map (capabilityEntry GOOS ri.State.Total bv.1)) := by
    intro bs
    induction bs with
    | nil => intro acc; simp
    | cons bv bs ih =>
      intro acc
      rw [List.foldl_cons, inner, ih, List.flatMap_cons, List.append_assoc]
  simpa using outer ri.State.Browsers []

theorem capabilityEntry_injective (GOOS : String) (total : Int) (b : String) :
    Function.Injective (capabilityEntry GOOS total b) := by
  intro v w h
  have := congrArg HubCapabilities.Version h
  simpa [capabilityEntry] using this

theorem mem_generateCapabilities (GOOS : String) (ri : RegistrationInfo) (c : HubCapabilities) :
    c ∈ generateCapabilities GOOS ri ↔
      ∃ b vs v, (b, vs) ∈ ri.State.Browsers ∧ v ∈ vs ∧
        c = capabilityEntry GOOS ri.State.Total b v := by
  rw [generateCapabilities_eq_flatMap]
  simp only [List.mem_flatMap, List.mem_map]
  constructor
  · rintro ⟨⟨b, vs⟩, hb, v, hv, rfl⟩
    exact ⟨b, vs, v, hb, hv, rfl⟩
  · rintro ⟨b, vs, v, hb, hv, rfl⟩
    exact ⟨(b, vs), hb, v, hv, rfl⟩

theorem nodup_generateCapabilities (GOOS : String) (ri : RegistrationInfo)
    (hkeys : (ri.State.Browsers.map Prod.fst).Nodup)
    (hvers : ∀ bv ∈ ri.State.Browsers, bv.2.Nodup) :
    (generateCapabilities GOOS ri).Nodup := by
  rw [generateCapabilities_eq_flatMap, List.nodup_flatMap]
  refine ⟨fun bv hbv => (hvers bv hbv).map (capabilityEntry_injective _ _ _), ?_⟩
  have hp : List.Pairwise (fun a b : String × List String => a.1 ≠ b.1) ri.State.Browsers :=
    List.pairwise_map.1 hkeys
  refine hp.imp ?_
  intro a b hab c hca hcb
  simp only [List.mem_map] at hca hcb
  obtain ⟨v, _, rfl⟩ := hca
  obtain ⟨w, _, hw⟩ := hcb
  exact hab (by simpa [capabilityEntry] using (congrArg HubCapabilities.Browser hw).symm)

theorem length_generateCapabilities (GOOS : String) (ri : RegistrationInfo) :
    (generateCapabilities GOOS ri).length =
      (ri.State.Browsers.map (fun bv => bv.2.length)).sum := by
  rw [generateCapabilities_eq_flatMap]
  induction ri.State.Browsers with
  | nil => simp
  | cons bv bs ih => simp [List.flatMap_cons, ih]

/-- C3: for a catalog with pairwise distinct browsers and, per browser,
pairwise distinct versions (a Go map of maps, in any visiting order),
`generateCapabilities` returns a permutation of the entries
{Browser=b, Version=v, MaxInstances=Total, Platform=GOOS, PlatformName=GOOS,
SeleniumProtocol="WebDriver"} over the catalog pairs (b, v): every pair occurs
exactly once, every element is such an entry, the list is a permutation of
any duplicate-free list with exactly these elements, its length is the sum of
the version counts, and every entry carries the total capacity. -/
theorem generateCapabilities_is_catalog_permutation (GOOS : String) (ri : RegistrationInfo)
    (hkeys : (ri.State.Browsers.map Prod.fst).Nodup)
    (hvers : ∀ bv ∈ ri.State.Browsers, bv.2.Nodup) :
    (∀ b vs v, (b, vs) ∈ ri.State.Browsers → v ∈ vs →
      (generateCapabilities GOOS ri).count
        { Browser := b, Version := v, MaxInstances := ri.State.Total, Platform := GOOS,
          PlatformName := GOOS, SeleniumProtocol := "WebDriver" } = 1) ∧
    (∀ c ∈ generateCapabilities GOOS ri, ∃ b vs v, (b, vs) ∈ ri.State.Browsers ∧ v ∈ vs ∧
      c = { Browser := b, Version := v, MaxInstances := ri.State.Total, Platform := GOOS,
            PlatformName := GOOS, SeleniumProtocol := "WebDriver" }) ∧
    (∀ l : List HubCapabilities, l.Nodup →
      (∀ c, c ∈ l ↔ ∃ b vs v, (b, vs) ∈ ri.State.Browsers ∧ v ∈ vs ∧
        c = { Browser := b, Version := v, MaxInstances := ri.State.Total, Platform := GOOS,
              PlatformName := GOOS, SeleniumProtocol := "WebDriver" }) →
      (generateCapabilities GOOS ri).Perm l) ∧
    (generateCapabilities GOOS ri).length =
      (ri.State.Browsers.map (fun bv => bv.2.length)).sum ∧
    (∀ c ∈ generateCapabilities GOOS ri, c.MaxInstances = ri.State.Total) := by
  have hnd := nodup_generateCapabilities GOOS ri hkeys hvers
  refine ⟨?_, ?_, ?_, length_generateCapabilities GOOS ri, ?_⟩
  · intro b vs v hb hv
    exact List.count_eq_one_of_mem hnd
      ((mem_generateCapabilities GOOS ri _).2 ⟨b, vs, v, hb, hv, rfl⟩)
  · intro c hc
    exact (mem_generateCapabilities GOOS ri c).1 hc
  · intro l hl hmem
    refine (List.perm_ext_iff_of_nodup hnd hl).2 ?_
    intro c
    rw [hmem c]
    exact mem_generateCapabilities GOOS ri c
  · intro c hc
    obtain ⟨b, vs, v, _, _, rfl⟩ := (mem_generateCapabilities GOOS ri c).1 hc
    rfl

/-- Witness for C3 on the scenario catalog {chrome: {90, 91}, firefox: {88}}
with capacity 5: the catalog is a well-formed map of maps, the pair
(chrome, 91) occurs exactly once and the list has 2 + 1 entries. -/
theorem generateCapabilities_is_catalog_permutation_witness :
    (scenarioInfo.State.Browsers.map Prod.fst).Nodup ∧
    (∀ bv ∈ scenarioInfo.State.Browsers, bv.2.Nodup) ∧
    (generateCapabilities "linux" scenarioInfo).count
      { Browser := "chrome", Version := "91", MaxInstances := 5, Platform := "linux",
        PlatformName := "linux", SeleniumProtocol := "WebDriver" } = 1 ∧
    (generateCapabilities "linux" scenarioInfo).length = 2 + 1 :=
  ⟨by decide, by decide,
    (generateCapabilities_is_catalog_permutation "linux" scenarioInfo
      (by decide) (by decide)).1 "chrome" ["90", "91"] "91" (by decide) (by decide),
    (generateCapabilities_is_catalog_permutation "linux" scenarioInfo
      (by decide) (by decide)).2.2.2.1⟩

/-! ## Facts about `net.SplitHostPort` and `createRegistration` -/

theorem indexByte_eq_none {s : List Char} {c : Char} (h : c ∉ s) : indexByte s c = none := by
  induction s with
  | nil => rfl
  | cons x xs ih =>
    have hx : x ≠ c := fun e => h (by simp [e])
    have hxs : c ∉ xs := fun e => h (by simp [e])
    simp [indexByte, hx, ih hxs]

theorem lastIndexByte_eq_none {s : List Char} {c : Char} (h : c ∉ s) :
    lastIndexByte s c = none := by
  induction s with
  | nil => rfl
  | cons x xs ih =>
    have hx : x ≠ c := fun e => h (by simp [e])
    have hxs : c ∉ xs := fun e => h (by simp [e])
    simp [lastIndexByte, hx, ih hxs]

theorem lastIndexByte_append_cons (hs ps : List Char) (c : Char) (h : c ∉ ps) :
    lastIndexByte (hs ++ c :: ps) c = some hs.length := by
  induction hs with
  | nil => simp [lastIndexByte, lastIndexByte_eq_none h]
  | cons x xs ih => simp [lastIndexByte, ih]

/-- A host without `:`, `[`, `]` followed by `:` and a port without these
characters is split into exactly that host and that port. -/
theorem SplitHostPort_host_colon_port (h p : String)
    (hh : ∀ c ∈ h.data, c ≠ ':' ∧ c ≠ '[' ∧ c ≠ ']')
    (hp : ∀ c ∈ p.data, c ≠ ':' ∧ c ≠ '[' ∧ c ≠ ']') :
    SplitHostPort (h ++ ":" ++ p) = (h, p, none) := by
  obtain ⟨hs⟩ := h
  obtain ⟨ps⟩ := p
  have hdata : (String.mk hs ++ ":" ++ String.mk ps).data = hs ++ ':' :: ps := by
    simp [String.data_append]
  have hcp : ':' ∉ ps := fun m => (hp _ m).1 rfl
  have hch : ':' ∉ hs := fun m => (hh _ m).1 rfl
  have hob : '[' ∉ hs ++ ':' :: ps := by
    intro m
    rcases List.mem_append.1 m with m | m
    · exact (hh _ m).2.1 rfl
    · rcases List.mem_cons.1 m with m | m
      · exact absurd m (by decide)
      · exact (hp _ m).2.1 rfl
  have hcb : ']' ∉ hs ++ ':' :: ps := by
    intro m
    rcases List.mem_append.1 m with m | m
    · exact (hh _ m).2.2 rfl
    · rcases List.mem_cons.1 m with m | m
      · exact absurd m (by decide)
      · exact (hp _ m).2.2 rfl
  have hhead : (hs ++ ':' :: ps).head? ≠ some '[' := by
    intro e
    exact hob (List.mem_of_mem_head? e)
  unfold SplitHostPort
  simp only [hdata, lastIndexByte_append_cons hs ps ':' hcp]
  rw [if_neg hhead]
  simp [splitHostPortFinish, List.take_left', indexByte_eq_none hch, indexByte_eq_none hob,
    indexByte_eq_none hcb, List.drop_left']

theorem createRegistration_ID (GOOS a : String) (ri : RegistrationInfo) :
    (createRegistration GOOS a ri).Configuration.ID =
      a ++ ":" ++ (SplitHostPort ri.ListenAddress).2.1 := rfl

theorem createRegistration_RemoteHost (GOOS a : String) (ri : RegistrationInfo) :
    (createRegistration GOOS a ri).Configuration.RemoteHost =
      "http://" ++ a ++ ":" ++ (SplitHostPort ri.ListenAddress).2.1 := by
  show "http://" ++ (a ++ ":" ++ (SplitHostPort ri.ListenAddress).2.1) = _
  simp [String.append_assoc]

/-- C4: when `net.SplitHostPort` accepts the listen address and splits it into
host `h` and port `p`, the built envelope has `ID = a ++ ":" ++ p` and
`RemoteHost = "http://" ++ a ++ ":" ++ p`; both depend only on the resolved
address and the listen address, so every build from the same inputs gives the
same two strings; every `h ++ ":" ++ p` with `h` and `p` free of `:`, `[`, `]`
is accepted and split into `h` and `p`; and the end-to-end scenario (catalog
{chrome: {90, 91}, firefox: {88}}, capacity 5, listen "0.0.0.0:4444", resolved
address "10.0.0.5") gives 3 capability entries, each with MaxInstances 5,
ID "10.0.0.5:4444" and RemoteHost "http://10.0.0.5:4444". -/
theorem createRegistration_identifier (GOOS a : String) (ri : RegistrationInfo) (h p : String)
    (hvalid : SplitHostPort ri.ListenAddress = (h, p, none)) :
    (createRegistration GOOS a ri).Configuration.ID = a ++ ":" ++ p ∧
    (createRegistration GOOS a ri).Configuration.RemoteHost = "http://" ++ a ++ ":" ++ p ∧
    (∀ (GOOS' : String) (ri' : RegistrationInfo), ri'.ListenAddress = ri.ListenAddress →
      (createRegistration GOOS' a ri').Configuration.ID =
        (createRegistration GOOS a ri).Configuration.ID ∧
      (createRegistration GOOS' a ri').Configuration.RemoteHost =
        (createRegistration GOOS a ri).Configuration.RemoteHost) ∧
    (∀ h' p' : String, (∀ c ∈ h'.data, c ≠ ':' ∧ c ≠ '[' ∧ c ≠ ']') →
      (∀ c ∈ p'.data, c ≠ ':' ∧ c ≠ '[' ∧ c ≠ ']') →
      SplitHostPort (h' ++ ":" ++ p') = (h', p', none)) ∧
    ((createRegistration GOOS "10.0.0.5" scenarioInfo).Configuration.Capabilities.length = 3 ∧
     (∀ c ∈ (createRegistration GOOS "10.0.0.5" scenarioInfo).Configuration.Capabilities,
        c.MaxInstances = 5) ∧
     (createRegistration GOOS "10.0.0.5" scenarioInfo).Configuration.ID = "10.0.0.5:4444" ∧
     (createRegistration GOOS "10.0.0.5" scenarioInfo).Configuration.RemoteHost =
        "http://10.0.0.5:4444") := by
  refine ⟨?_, ?_, ?_, SplitHostPort_host_colon_port, ?_, ?_, ?_, ?_⟩
  · rw [createRegistration_ID, hvalid]
  · rw [createRegistration_RemoteHost, hvalid]
  · intro GOOS' ri' hL
    simp only [createRegistration_ID, createRegistration_RemoteHost, hL, and_self]
  · rfl
  · intro c hc
    have hc' : c ∈ generateCapabilities GOOS scenarioInfo := hc
    obtain ⟨b, vs, v, _, _, rfl⟩ := (mem_generateCapabilities GOOS scenarioInfo c).1 hc'
    rfl
  · rw [createRegistration_ID]; decide
  · rw [createRegistration_RemoteHost]; decide

/-- Witness for C4 at the scenario inputs: "0.0.0.0:4444" is accepted and split
into "0.0.0.0" and "4444". -/
theorem createRegistration_identifier_witness :
    SplitHostPort scenarioInfo.ListenAddress = ("0.0.0.0", "4444", none) ∧
    (createRegistration "linux" "10.0.0.5" scenarioInfo).Configuration.ID =
      "10.0.0.5" ++ ":" ++ "4444" ∧
    (createRegistration "linux" "10.0.0.5" scenarioInfo).Configuration.RemoteHost =
      "http://" ++ "10.0.0.5" ++ ":" ++ "4444" :=
  ⟨by decide,
    (createRegistration_identifier "linux" "10.0.0.5" scenarioInfo "0.0.0.0" "4444"
      (by decide)).1,
    (createRegistration_identifier "linux" "10.0.0.5" scenarioInfo "0.0.0.0" "4444"
      (by decide)).2.1⟩

/-! ## Facts about `strconv.Atoi` -/

theorem digitVal_le_nine {c : Char} (h : isDigit c = true) : digitVal c ≤ 9 := by
  simp only [isDigit, Bool.and_eq_true, decide_eq_true_eq] at h
  have h0 : '0'.toNat = 48 := by decide
  have h9 : '9'.toNat = 57 := by decide
  unfold digitVal
  omega

theorem le_decimalFrom (ds : List Char) (n : Nat) : n ≤ decimalFrom n ds := by
  induction ds generalizing n with
  | nil => exact Nat.le_refl n
  | cons d ds ih =>
    have := ih (n * 10 + digitVal d)
    simp only [decimalFrom, List.foldl_cons] at this ⊢
    omega

theorem decimalFrom_lt (ds : List Char) (hd : ∀ c ∈ ds, isDigit c = true) (n : Nat) :
    decimalFrom n ds < (n + 1) * 10 ^ ds.length := by
  induction ds generalizing n with
  | nil => simp [decimalFrom]
  | cons d ds ih =>
    have h9 := digitVal_le_nine (hd d (by simp))
    have := ih (fun c hc => hd c (by simp [hc])) (n * 10 + digitVal d)
    simp only [decimalFrom, List.foldl_cons, List.length_cons] at this ⊢
    calc _ < (n * 10 + digitVal d + 1) * 10 ^ ds.length := this
      _ ≤ ((n + 1) * 10) * 10 ^ ds.length := Nat.mul_le_mul_right _ (by omega)
      _ = (n + 1) * 10 ^ (ds.length + 1) := by ring

theorem atoiFastLoop_digits (ds : List Char) (hd : ∀ c ∈ ds, isDigit c = true) (n : Nat) :
    atoiFastLoop ds n = some (decimalFrom n ds) := by
  induction ds generalizing n with
  | nil => rfl
  | cons d ds ih =>
    simp only [atoiFastLoop, hd d (by simp), if_true, decimalFrom, List.foldl_cons]
    exact ih (fun c hc => hd c (by simp [hc])) _

theorem atoiFastLoop_nondigit (l : List Char) (hl : ¬ ∀ c ∈ l, isDigit c = true) (n : Nat) :
    atoiFastLoop l n = none := by
  induction l generalizing n with
  | nil => exact absurd (by simp) hl
  | cons d ds ih =>
    by_cases hdg : isDigit d = true
    · simp only [atoiFastLoop, hdg, if_true]
      apply ih
      intro hall
      apply hl
      intro c hc
      rcases List.mem_cons.1 hc with rfl | hc
      · exact hdg
      · exact hall c hc
    · simp [atoiFastLoop, hdg]

theorem parseUintLoop_digits (ds : List Char) (hd : ∀ c ∈ ds, isDigit c = true)
    (rest : List Char) (n : Nat) (hlt : decimalFrom n ds < 2 ^ 64) :
    parseUintLoop (ds ++ rest) n = parseUintLoop rest (decimalFrom n ds) := by
  induction ds generalizing n with
  | nil => rfl
  | cons d ds ih =>
    have hdg := hd d (by simp)
    have h9 := digitVal_le_nine hdg
    have hle := le_decimalFrom ds (n * 10 + digitVal d)
    have hlt' : decimalFrom (n * 10 + digitVal d) ds < 2 ^ 64 := hlt
    have h64 : (2 : Nat) ^ 64 = 18446744073709551616 := by norm_num
    have hmod : (n * 10 + digitVal d) % 2 ^ 64 = n * 10 + digitVal d :=
      Nat.mod_eq_of_lt (by omega)
    have h1 : ¬ n ≥ maxUint64 / 10 + 1 := by
      simp only [maxUint64, h64]
      omega
    have h2 : ¬ (n * 10 + digitVal d < n * 10 ∨ n * 10 + digitVal d > maxUint64) := by
      simp only [maxUint64, h64]
      omega
    simp only [List.cons_append, parseUintLoop, hdg, if_true, h1, if_false, hmod, h2]
    exact ih (fun c hc => hd c (by simp [hc])) _ hlt'

theorem parseUintLoop_overflow (ds : List Char) (hd : ∀ c ∈ ds, isDigit c = true)
    (n : Nat) (hn : n < 2 ^ 64) (hge : 2 ^ 64 ≤ decimalFrom n ds) :
    parseUintLoop ds n = (maxUint64, some .ErrRange) := by
  induction ds generalizing n with
  | nil => simp only [decimalFrom, List.foldl_nil] at hge; omega
  | cons d ds ih =>
    have hdg := hd d (by simp)
    have h9 := digitVal_le_nine hdg
    have h64 : (2 : Nat) ^ 64 = 18446744073709551616 := by norm_num
    have hge' : 2 ^ 64 ≤ decimalFrom (n * 10 + digitVal d) ds := hge
    simp only [parseUintLoop, hdg, if_true]
    by_cases h1 : n ≥ maxUint64 / 10 + 1
    · simp [h1]
    · rw [if_neg h1]
      have hn1 : n * 10 + digitVal d < 2 * 2 ^ 64 := by
        simp only [maxUint64, h64] at h1
        omega
      by_cases hov : n * 10 + digitVal d < 2 ^ 64
      · have hmod : (n * 10 + digitVal d) % 2 ^ 64 = n * 10 + digitVal d :=
          Nat.mod_eq_of_lt hov
        have h2 : ¬ (n * 10 + digitVal d < n * 10 ∨ n * 10 + digitVal d > maxUint64) := by
          simp only [maxUint64, h64]
          omega
        simp only [hmod, h2, if_false]
        exact ih (fun c hc => hd c (by simp [hc])) _ hov hge'
      · have hmod : (n * 10 + digitVal d) % 2 ^ 64 = n * 10 + digitVal d - 2 ^ 64 := by
          rw [Nat.mod_eq_sub_mod (by omega)]
          exact Nat.mod_eq_of_lt (by omega)
        have h2 : (n * 10 + digitVal d - 2 ^ 64 < n * 10 ∨
            n * 10 + digitVal d - 2 ^ 64 > maxUint64) := by
          left
          omega
        simp only [hmod, h2, if_true]
theorem ParseUint_digits (ds : List Char) (hne : ds ≠ []) (hd : ∀ c ∈ ds, isDigit c = true) :
    ParseUint ds =
      if decimalFrom 0 ds < 2 ^ 64 then (decimalFrom 0 ds, none)
      else (maxUint64, some .ErrRange) := by
  cases ds with
  | nil => exact absurd rfl hne
  | cons d ds =>
    show parseUintLoop (d :: ds) 0 = _
    split
    · next hlt =>
      have := parseUintLoop_digits (d :: ds) hd [] 0 hlt
      simpa [parseUintLoop] using this
    · next hge =>
      exact parseUintLoop_overflow (d :: ds) hd 0 (by norm_num) (by omega)

theorem takeWhile_isDigit_split (l : List Char) (hl : ¬ ∀ c ∈ l, isDigit c = true) :
    ∃ c rest, isDigit c = false ∧ l = l.takeWhile isDigit ++ c :: rest := by
  induction l with
  | nil => exact absurd (by simp) hl
  | cons d ds ih =>
    by_cases hdg : isDigit d = true
    · have : ¬ ∀ c ∈ ds, isDigit c = true := by
        intro hall
        apply hl
        intro c hc
        rcases List.mem_cons.1 hc with rfl | hc
        · exact hdg
        · exact hall c hc
      obtain ⟨c, rest, hc, hsplit⟩ := ih this
      refine ⟨c, rest, hc, ?_⟩
      rw [List.takeWhile_cons_of_pos hdg, List.cons_append, ← hsplit]
    · refine ⟨d, ds, by simpa using hdg, ?_⟩
      rw [List.takeWhile_cons_of_neg hdg, List.nil_append]

theorem ParseUint_nondigit (l : List Char) (hl : ¬ ∀ c ∈ l, isDigit c = true)
    (hlt : decimalFrom 0 (l.takeWhile isDigit) < 2 ^ 64) :
    ParseUint l = (0, some .ErrSyntax) := by
  obtain ⟨c, rest, hc, hsplit⟩ := takeWhile_isDigit_split l hl
  have hpre : ∀ x ∈ l.takeWhile isDigit, isDigit x = true :=
    fun x hx => List.mem_takeWhile_imp hx
  have hloop : parseUintLoop l 0 = (0, some .ErrSyntax) := by
    rw [hsplit, parseUintLoop_digits _ hpre (c :: rest) 0 hlt]
    simp [parseUintLoop, hc]
  cases l with
  | nil => rfl
  | cons d ds => exact hloop

theorem length_le_utf8ByteSize (l : List Char) : l.length ≤ (String.mk l).utf8ByteSize := by
  show l.length ≤ String.utf8ByteSize.go l
  induction l with
  | nil => exact Nat.le_refl 0
  | cons c cs ih =>
    have := Char.utf8Size_pos c
    simp only [String.utf8ByteSize.go, List.length_cons]
    omega

theorem length_unsignedPart_le (l : List Char) : (unsignedPart l).length ≤ l.length := by
  cases l with
  | nil => exact Nat.le_refl 0
  | cons c rest =>
    simp only [unsignedPart]
    split <;> simp

theorem ParseInt_decimal (l : List Char) (hne : unsignedPart l ≠ [])
    (hd : ∀ c ∈ unsignedPart l, isDigit c = true) :
    ParseInt l =
      if l.head? = some '-' then
        (if decimalFrom 0 (unsignedPart l) > 2 ^ 63 then (-(2 : Int) ^ 63, some .ErrRange)
         else (-(decimalFrom 0 (unsignedPart l) : Int), none))
      else
        (if decimalFrom 0 (unsignedPart l) ≥ 2 ^ 63 then ((2 : Int) ^ 63 - 1, some .ErrRange)
         else ((decimalFrom 0 (unsignedPart l) : Int), none)) := by
  cases l with
  | nil => exact absurd rfl hne
  | cons c rest =>
    have hbody : (if c = '+' ∨ c = '-' then rest else c :: rest) = unsignedPart (c :: rest) := rfl
    have h64 : (2 : Nat) ^ 64 = 18446744073709551616 := by norm_num
    have h63 : (2 : Nat) ^ 63 = 9223372036854775808 := by norm_num
    have hpu := ParseUint_digits _ hne hd
    simp only [ParseInt, hbody, List.head?_cons, Option.some.injEq]
    by_cases hlt : decimalFrom 0 (unsignedPart (c :: rest)) < 2 ^ 64
    · rw [if_pos hlt] at hpu
      rw [hpu]
      by_cases hneg : c = '-'
      · by_cases hv : decimalFrom 0 (unsignedPart (c :: rest)) > 2 ^ 63
        · simp [hneg, hv]
        · simp [hneg, hv]
      · by_cases hv : decimalFrom 0 (unsignedPart (c :: rest)) ≥ 2 ^ 63
        · simp [hneg, hv]
        · simp [hneg, hv]
    · rw [if_neg hlt] at hpu
      rw [hpu]
      have hmax : maxUint64 = 18446744073709551615 := by norm_num [maxUint64]
      have hv1 : decimalFrom 0 (unsignedPart (c :: rest)) > 2 ^ 63 := by omega
      have hv2 : decimalFrom 0 (unsignedPart (c :: rest)) ≥ 2 ^ 63 := by omega
      by_cases hneg : c = '-'
      · rw [if_pos hneg, if_pos hv1]; simp [hneg, hmax]
      · rw [if_neg hneg, if_pos hv2]; simp [hneg, hmax]

theorem ParseInt_nondecimal (l : List Char)
    (hnd : ¬ (unsignedPart l ≠ [] ∧ ∀ c ∈ unsignedPart l, isDigit c = true))
    (hlt : decimalFrom 0 ((unsignedPart l).takeWhile isDigit) < 2 ^ 64) :
    ParseInt l = (0, some .ErrSyntax) := by
  cases l with
  | nil => rfl
  | cons c rest =>
    have hbody : (if c = '+' ∨ c = '-' then rest else c :: rest) = unsignedPart (c :: rest) := rfl
    have hpu : ParseUint (unsignedPart (c :: rest)) = (0, some .ErrSyntax) := by
      by_cases hne : unsignedPart (c :: rest) = []
      · rw [hne]; rfl
      · exact ParseUint_nondigit _ (fun hall => hnd ⟨hne, hall⟩) hlt
    simp only [ParseInt, hbody, hpu]

theorem isDecimalInteger_iff (s : String) :
    isDecimalInteger s = true ↔
      (unsignedPart s.data ≠ [] ∧ ∀ c ∈ unsignedPart s.data, isDigit c = true) := by
  simp [isDecimalInteger, List.isEmpty_iff]

theorem atoi_body_eq (c : Char) (rest : List Char) :
    (if decide (c = '-' ∨ c = '+') = true then rest else c :: rest) =
      unsignedPart (c :: rest) := by
  simp [unsignedPart, or_comm]

/-- The result of `strconv.Atoi` on a decimal integer: its value when that fits a 64-bit
`int`, else the nearest bound together with `ErrRange`. -/
theorem Atoi_decimal (s : String) (hdec : isDecimalInteger s = true) :
    Atoi s =
      if s.data.head? = some '-' then
        (if decimalFrom 0 (unsignedPart s.data) > 2 ^ 63 then (-(2 : Int) ^ 63, some .ErrRange)
         else (-(decimalFrom 0 (unsignedPart s.data) : Int), none))
      else
        (if decimalFrom 0 (unsignedPart s.data) ≥ 2 ^ 63 then ((2 : Int) ^ 63 - 1, some .ErrRange)
         else ((decimalFrom 0 (unsignedPart s.data) : Int), none)) := by
  obtain ⟨hne, hd⟩ := (isDecimalInteger_iff s).1 hdec
  obtain ⟨l⟩ := s
  dsimp only at hne hd ⊢
  by_cases hfast : 0 < (String.mk l).utf8ByteSize ∧ (String.mk l).utf8ByteSize < 19
  · cases l with
    | nil => exact absurd rfl hne
    | cons c rest =>
      have hlen : (unsignedPart (c :: rest)).length ≤ 18 := by
        have h1 := length_unsignedPart_le (c :: rest)
        have h2 := length_le_utf8ByteSize (c :: rest)
        omega
      have hv : decimalFrom 0 (unsignedPart (c :: rest)) < 10 ^ 18 := by
        have h1 := decimalFrom_lt _ hd 0
        have h2 : 10 ^ (unsignedPart (c :: rest)).length ≤ 10 ^ 18 :=
          Nat.pow_le_pow_right (by norm_num) hlen
        omega
      have hemp : (unsignedPart (c :: rest)).isEmpty = false := by
        simpa [List.isEmpty_iff] using hne
      have h63 : (2 : Nat) ^ 63 = 9223372036854775808 := by norm_num
      have h18 : (10 : Nat) ^ 18 = 1000000000000000000 := by norm_num
      have hv1 : ¬ decimalFrom 0 (unsignedPart (c :: rest)) > 2 ^ 63 := by omega
      have hv2 : ¬ decimalFrom 0 (unsignedPart (c :: rest)) ≥ 2 ^ 63 := by omega
      simp only [Atoi, if_pos hfast, atoi_body_eq, hemp, Bool.and_false,
        atoiFastLoop_digits _ hd 0, List.head?_cons, Option.some.injEq, if_neg hv1, if_neg hv2]
      by_cases hneg : c = '-' <;> simp [hneg]
  · simp only [Atoi, if_neg hfast]
    exact ParseInt_decimal l hne hd

/-- The result of `strconv.Atoi` on a string that is not a decimal integer and whose leading
digits (after an optional sign) do not overflow a `uint64`: value 0 with
`ErrSyntax`. -/
theorem Atoi_nondecimal (s : String) (hnd : isDecimalInteger s = false)
    (hlt : decimalFrom 0 ((unsignedPart s.data).takeWhile isDigit) < 2 ^ 64) :
    Atoi s = (0, some .ErrSyntax) := by
  have hnd' : ¬ (unsignedPart s.data ≠ [] ∧ ∀ c ∈ unsignedPart s.data, isDigit c = true) := by
    rw [← isDecimalInteger_iff, hnd]
    exact Bool.false_ne_true
  obtain ⟨l⟩ := s
  dsimp only at hnd' hlt
  by_cases hfast : 0 < (String.mk l).utf8ByteSize ∧ (String.mk l).utf8ByteSize < 19
  · cases l with
    | nil => simp [Atoi, hfast]
    | cons c rest =>
      simp only [Atoi, if_pos hfast, atoi_body_eq]
      by_cases hemp : unsignedPart (c :: rest) = []
      · by_cases hs : c = '-' ∨ c = '+'
        · simp [hemp, hs]
        · exfalso
          have : unsignedPart (c :: rest) = c :: rest := by
            simp only [unsignedPart]
            rw [if_neg (fun h => hs (Or.symm h))]
          rw [this] at hemp
          exact List.cons_ne_nil _ _ hemp
      · have hemp' : (unsignedPart (c :: rest)).isEmpty = false := by
          simpa [List.isEmpty_iff] using hemp
        have hloop := atoiFastLoop_nondigit (unsignedPart (c :: rest))
          (fun hall => hnd' ⟨hemp, hall⟩) 0
        simp only [hemp', Bool.and_false, hloop]
        simp
  · simp only [Atoi, if_neg hfast]
    exact ParseInt_nondecimal l hnd' hlt

theorem splitHostPortFinish_error_port (s host : List Char) (i j k : Nat)
    (herr : (splitHostPortFinish s host i j k).2.2 ≠ none) :
    (splitHostPortFinish s host i j k).2.1 = "" := by
  unfold splitHostPortFinish at herr ⊢
  split
  · rfl
  · split
    · rfl
    · next h1 h2 => simp [h1, h2] at herr

/-- When `net.SplitHostPort` returns an error, the port it returns is empty. -/
theorem SplitHostPort_error_port (L : String) (herr : (SplitHostPort L).2.2 ≠ none) :
    (SplitHostPort L).2.1 = "" := by
  unfold SplitHostPort at herr ⊢
  dsimp only at herr ⊢
  split
  · rfl
  · next i hi =>
    rw [hi] at herr
    dsimp only at herr
    split
    · next hb =>
      rw [if_pos hb] at herr
      split
      · rfl
      · next e he =>
        rw [he] at herr
        dsimp only at herr
        split
        · rfl
        · next h1 =>
          rw [if_neg h1] at herr
          split
          · next h2 =>
            rw [if_pos h2] at herr
            exact splitHostPortFinish_error_port _ _ _ _ _ herr
          · split <;> rfl
    · next hb =>
      rw [if_neg hb] at herr
      split
      · rfl
      · next h1 =>
        rw [if_neg h1] at herr
        exact splitHostPortFinish_error_port _ _ _ _ _ herr

theorem createRegistration_Port (GOOS a : String) (ri : RegistrationInfo) :
    (createRegistration GOOS a ri).Configuration.Port =
      (Atoi (SplitHostPort ri.ListenAddress).2.1).1 := rfl

/-- C10 (amended): `createRegistration` returns an envelope for every listen
address.  If `net.SplitHostPort` rejects the listen address, `Port` is 0.  If it
splits it into host `h` and port `p`, then: when `p` is a decimal integer
(optional sign, at least one digit) whose value fits a 64-bit `int`, `Port` is
that value; when its value is larger than `2^63 - 1`, `Port` is `2^63 - 1`, and
when it is smaller than `-2^63`, `Port` is `-2^63`; when `p` is not a decimal
integer and its leading digits do not overflow 64 bits, `Port` is 0. -/
theorem createRegistration_port_total (GOOS a : String) (ri : RegistrationInfo) :
    (∃ r : RegistrationRequest, createRegistration GOOS a ri = r) ∧
    ((SplitHostPort ri.ListenAddress).2.2 ≠ none →
      (createRegistration GOOS a ri).Configuration.Port = 0) ∧
    (∀ h p : String, SplitHostPort ri.ListenAddress = (h, p, none) →
      (isDecimalInteger p = true → -(2 : Int) ^ 63 ≤ integerValue p →
        integerValue p ≤ (2 : Int) ^ 63 - 1 →
        (createRegistration GOOS a ri).Configuration.Port = integerValue p) ∧
      (isDecimalInteger p = true → (2 : Int) ^ 63 - 1 < integerValue p →
        (createRegistration GOOS a ri).Configuration.Port = (2 : Int) ^ 63 - 1) ∧
      (isDecimalInteger p = true → integerValue p < -(2 : Int) ^ 63 →
        (createRegistration GOOS a ri).Configuration.Port = -(2 : Int) ^ 63) ∧
      (isDecimalInteger p = false →
        decimalFrom 0 ((unsignedPart p.data).takeWhile isDigit) < 2 ^ 64 →
        (createRegistration GOOS a ri).Configuration.Port = 0)) := by
  refine ⟨⟨_, rfl⟩, ?_, ?_⟩
  · intro herr
    rw [createRegistration_Port, SplitHostPort_error_port _ herr]
    rfl
  · intro h p hsplit
    have hport : (createRegistration GOOS a ri).Configuration.Port = (Atoi p).1 := by
      rw [createRegistration_Port, hsplit]
    have h63 : (2 : Int) ^ 63 = 9223372036854775808 := by norm_num
    have h63n : (2 : Nat) ^ 63 = 9223372036854775808 := by norm_num
    refine ⟨?_, ?_, ?_, ?_⟩
    · intro hdec hlo hhi
      rw [hport, Atoi_decimal p hdec]
      unfold integerValue at hlo hhi ⊢
      by_cases hneg : p.data.head? = some '-'
      · simp only [if_pos hneg] at hlo hhi ⊢
        have : ¬ decimalFrom 0 (unsignedPart p.data) > 2 ^ 63 := by omega
        rw [if_neg this]
      · simp only [if_neg hneg] at hlo hhi ⊢
        have : ¬ decimalFrom 0 (unsignedPart p.data) ≥ 2 ^ 63 := by omega
        rw [if_neg this]
    · intro hdec hhi
      rw [hport, Atoi_decimal p hdec]
      unfold integerValue at hhi
      by_cases hneg : p.data.head? = some '-'
      · rw [if_pos hneg] at hhi
        omega
      · rw [if_neg hneg] at hhi ⊢
        have : decimalFrom 0 (unsignedPart p.data) ≥ 2 ^ 63 := by omega
        rw [if_pos this]
    · intro hdec hlo
      rw [hport, Atoi_decimal p hdec]
      unfold integerValue at hlo
      by_cases hneg : p.data.head? = some '-'
      · rw [if_pos hneg] at hlo ⊢
        have : decimalFrom 0 (unsignedPart p.data) > 2 ^ 63 := by omega
        rw [if_pos this]
      · rw [if_neg hneg] at hlo
        omega
    · intro hnd hlt
      rw [hport, Atoi_nondecimal p hnd hlt]

/-- Counterexample to C10 as stated.  The listen address ":9223372036854775808"
is well formed and its port is a decimal integer with value `2^63`, but `Port` is
`2^63 - 1`, not that value; and the port of ":99999999999999999999x" is not a
decimal integer, but `Port` is `2^63 - 1`, not 0. -/
theorem createRegistration_port_counterexample :
    SplitHostPort ":9223372036854775808" = ("", "9223372036854775808", none) ∧
    isDecimalInteger "9223372036854775808" = true ∧
    integerValue "9223372036854775808" = 9223372036854775808 ∧
    (createRegistration "linux" "10.0.0.5"
      (infoListening ":9223372036854775808")).Configuration.Port = 9223372036854775807 ∧
    (createRegistration "linux" "10.0.0.5"
      (infoListening ":9223372036854775808")).Configuration.Port ≠
        integerValue "9223372036854775808" ∧
    SplitHostPort ":99999999999999999999x" = ("", "99999999999999999999x", none) ∧
    isDecimalInteger "99999999999999999999x" = false ∧
    (createRegistration "linux" "10.0.0.5"
      (infoListening ":99999999999999999999x")).Configuration.Port ≠ 0 := by
  decide

/-- Witness for C10: listen address "0.0.0.0:4444" gives port 4444, the
malformed listen address "4444" (no colon) gives port 0, and the listen
address ":http" (port not a decimal integer) gives port 0. -/
theorem createRegistration_port_total_witness :
    (createRegistration "linux" "10.0.0.5" (infoListening "0.0.0.0:4444")).Configuration.Port
      = 4444 ∧
    (createRegistration "linux" "10.0.0.5" (infoListening "4444")).Configuration.Port = 0 ∧
    (createRegistration "linux" "10.0.0.5" (infoListening ":http")).Configuration.Port = 0 :=
  ⟨((createRegistration_port_total "linux" "10.0.0.5" (infoListening "0.0.0.0:4444")).2.2
      "0.0.0.0" "4444" (by decide)).1 (by decide) (by decide) (by decide),
   (createRegistration_port_total "linux" "10.0.0.5" (infoListening "4444")).2.1 (by decide),
   ((createRegistration_port_total "linux" "10.0.0.5" (infoListening ":http")).2.2
      "" "http" (by decide)).2.2.2 (by decide) (by decide)⟩

/-! ## Facts about the heartbeat loop -/

theorem run_STOPPED (hubAddress localAddress listen : String) (es : List Event) :
    run hubAddress localAddress listen .STOPPED es = ([], .STOPPED) := by
  induction es with
  | nil => rfl
  | cons e es ih => simp [run, step, ih]

theorem run_append (hubAddress localAddress listen : String) (c : Control)
    (xs ys : List Event) :
    run hubAddress localAddress listen c (xs ++ ys) =
      ((run hubAddress localAddress listen c xs).1 ++
        (run hubAddress localAddress listen
          (run hubAddress localAddress listen c xs).2 ys).1,
       (run hubAddress localAddress listen
          (run hubAddress localAddress listen c xs).2 ys).2) := by
  induction xs generalizing c with
  | nil => simp [run]
  | cons x xs ih => simp [run, ih, List.append_assoc]

theorem Decode_hubReply (m : String) (b : Bool) (pi : Option HubProxyInfo) :
    Decode (hubReply m b) pi = (some { Message := m, Success := b }, false) := by
  simp [Decode, hubReply, storeMember, findField]

theorem storeMember_eq (acc : HubProxyInfo × Bool) (m : String × Json) :
    storeMember acc m =
      ({ Message := (memberMessage m).getD acc.1.Message,
         Success := (memberSuccess m).getD acc.1.Success },
       acc.2 || memberIllTyped m) := by
  obtain ⟨k, v⟩ := m
  obtain ⟨⟨msg, flag⟩, e⟩ := acc
  simp only [storeMember, memberMessage, memberSuccess, memberIllTyped]
  cases hf : findField k with
  | none => simp
  | some f => cases f <;> cases v <;> simp

theorem foldl_storeMember (members : List (String × Json)) (acc : HubProxyInfo × Bool) :
    members.foldl storeMember acc =
      ({ Message := (lastMessage members).getD acc.1.Message,
         Success := (lastSuccess members).getD acc.1.Success },
       acc.2 || members.any memberIllTyped) := by
  induction members generalizing acc with
  | nil => simp [lastMessage, lastSuccess]
  | cons m ms ih =>
    rw [List.foldl_cons, ih, storeMember_eq]
    simp only [lastMessage, lastSuccess, List.any_cons]
    cases lastMessage ms <;> cases lastSuccess ms <;> simp [Bool.or_assoc]

/-- What `Decode` does with an object: every field takes the value of the last
well-typed member that selects it and keeps its value when there is none; the
call returns an error exactly when some member is ill-typed. -/
theorem Decode_object (members : List (String × Json)) (r : HubProxyInfo) :
    Decode (some (.object members)) (some r) =
      (some { Message := (lastMessage members).getD r.Message,
              Success := (lastSuccess members).getD r.Success },
       members.any memberIllTyped) := by
  simp [Decode, foldl_storeMember]

/-- The stored reply after `Decode`, for every body on which it is not `nil`:
the fields the body carries are replaced, the others are kept. -/
theorem Decode_fst_of_ne_null (body : Option Json) (r : HubProxyInfo)
    (hnull : ∀ j, body = some j → j ≠ .null) :
    (Decode body (some r)).1 =
      some { Message := (bodyMessage body).getD r.Message,
             Success := (bodySuccess body).getD r.Success } := by
  cases body with
  | none => rfl
  | some j =>
    cases j with
    | null => exact absurd rfl (hnull _ rfl)
    | object members => rw [Decode_object]; rfl
    | bool v => rfl
    | number v => rfl
    | string v => rfl
    | array v => rfl

theorem Decode_snd_eq (body : Option Json) (r r' : HubProxyInfo) :
    (Decode body (some r)).2 = (Decode body (some r')).2 := by
  cases body with
  | none => rfl
  | some j =>
    cases j with
    | object members => rw [Decode_object, Decode_object]
    | null => rfl
    | bool v => rfl
    | number v => rfl
    | string v => rfl
    | array v => rfl

theorem Decode_error_ne_null (body : Option Json) (r : HubProxyInfo)
    (hfail : (Decode body (some r)).2 = true) : ∀ j, body = some j → j ≠ .null := by
  intro j hj hn
  subst hj
  subst hn
  simp [Decode] at hfail

/-- The requests of a cycle whose status GET returns 200 with a body other
than `null`: the GET, followed by one POST exactly when the flag the body
carries, or else the stored flag, is false. -/
theorem cycle_of_ne_null (hubAddress localAddress listen : String) (r : HubProxyInfo)
    (b : Bytes) (body : Option Json) (postRead : Nat)
    (hnull : ∀ j, body = some j → j ≠ .null) :
    cycle hubAddress localAddress listen { pi := some r, b := b }
        { get := .response 200 body, postRead := postRead } =
      (if (bodySuccess body).getD r.Success = true then
        ([statusRequest hubAddress localAddress listen],
          some { pi := some { Message := (bodyMessage body).getD r.Message,
                              Success := (bodySuccess body).getD r.Success }, b := b })
       else
        ([statusRequest hubAddress localAddress listen, registerRequest hubAddress b],
          some { pi := some { Message := (bodyMessage body).getD r.Message,
                              Success := (bodySuccess body).getD r.Success },
                 b := b.drop postRead })) := by
  simp only [cycle, if_true, Decode_fst_of_ne_null body r hnull]
  cases (bodySuccess body).getD r.Success <;> simp

/-- Counterexample to C5 as stated.  The body `{"msg": "unknown proxy"}` decodes
without error to the reply {"unknown proxy", false}, but in a cycle that follows
a cycle answered with `success: true` the stored flag stays true and no POST is
issued: the two cycles issue two GETs and nothing else. -/
theorem cycle_decoded_reply_counterexample :
    decodeFresh (some (.object [("msg", .string "unknown proxy")])) =
      (some { Message := "unknown proxy", Success := false }, false) ∧
    (hubRegistration (fun _ => [123, 125, 10]) "linux" "10.0.0.5" "hub:4444" ":4444"
        (infoListening ":4444")
        [.tick { get := .response 200 (hubReply "" true), postRead := 0 },
         .tick { get := .response 200 (some (.object [("msg", .string "unknown proxy")])),
                 postRead := 0 }]).1 =
      [statusRequest "hub:4444" "10.0.0.5" ":4444",
       statusRequest "hub:4444" "10.0.0.5" ":4444"] := by
  decide

/-- C5 (amended): in a cycle whose status GET returns 200 and whose body decodes
without error to a reply `r`, entered with stored reply `r0`: if `r.Success` is
true the cycle issues the GET and nothing else; if `r.Success` is false and the
body carries a Boolean `success` member, or the stored flag `r0.Success` is
false, the cycle issues the GET and then exactly one POST to `/grid/register`
with headers `User-Agent: selenoid` and `Content-Type: application/json`; if
the body carries no Boolean `success` member and the stored flag is true, the
cycle issues the GET and nothing else.  The decode merges the body into the
stored reply without error: fields the body carries are replaced, the others
are kept.  A body `{"msg": m, "success": b}` decodes to the reply with that
message and that flag. -/
theorem cycle_decoded_reply (hubAddress localAddress listen : String) (r0 : HubProxyInfo)
    (b : Bytes) (body : Option Json) (postRead : Nat) (r : HubProxyInfo)
    (hdec : decodeFresh body = (some r, false)) :
    (r.Success = true →
      (cycle hubAddress localAddress listen { pi := some r0, b := b }
        { get := .response 200 body, postRead := postRead }).1 =
        [statusRequest hubAddress localAddress listen]) ∧
    (r.Success = false → (bodySuccess body ≠ none ∨ r0.Success = false) →
      (cycle hubAddress localAddress listen { pi := some r0, b := b }
        { get := .response 200 body, postRead := postRead }).1 =
        [statusRequest hubAddress localAddress listen,
         { Method := "POST"
           URL := "http://" ++ hubAddress ++ "/grid/register"
           Header := [("User-Agent", "selenoid"), ("Content-Type", "application/json")]
           Body := b }]) ∧
    (bodySuccess body = none → r0.Success = true →
      r.Success = false ∧
      (cycle hubAddress localAddress listen { pi := some r0, b := b }
        { get := .response 200 body, postRead := postRead }).1 =
        [statusRequest hubAddress localAddress listen]) ∧
    Decode body (some r0) =
      (some { Message := (bodyMessage body).getD r0.Message,
              Success := (bodySuccess body).getD r0.Success }, false) ∧
    (statusRequest hubAddress localAddress listen).Method = "GET" ∧
    (∀ (m : String) (v : Bool),
      decodeFresh (some (.object [("msg", .string m), ("success", .bool v)])) =
        (some { Message := m, Success := v }, false)) := by
  have hnull : ∀ j, body = some j → j ≠ .null := by
    intro j hj hn
    subst hj
    subst hn
    simp [decodeFresh, Decode] at hdec
  have hr : r.Success = (bodySuccess body).getD false := by
    have h1 := Decode_fst_of_ne_null body { Message := "", Success := false } hnull
    have h2 : (Decode body (some { Message := "", Success := false })).1 = some r := by
      have := congrArg Prod.fst hdec
      exact this
    rw [h2] at h1
    have := Option.some.inj h1
    rw [this]
  have herr : (Decode body (some r0)).2 = false := by
    rw [Decode_snd_eq body r0 { Message := "", Success := false }]
    exact congrArg Prod.snd hdec
  have hcyc := cycle_of_ne_null hubAddress localAddress listen r0 b body postRead hnull
  refine ⟨?_, ?_, ?_, ?_, rfl, fun m v => Decode_hubReply m v _⟩
  · intro hs
    have hflag : (bodySuccess body).getD r0.Success = true := by
      cases hb : bodySuccess body with
      | none => rw [hb] at hr; simp [hs] at hr
      | some v => rw [hb] at hr; simpa [hs] using hr.symm
    rw [hcyc, if_pos hflag]
  · intro hs hor
    have hflag : ¬ (bodySuccess body).getD r0.Success = true := by
      cases hb : bodySuccess body with
      | none =>
        rcases hor with h | h
        · exact absurd hb h
        · simp [h]
      | some v =>
        rw [hb] at hr
        have hv : v = false := by simpa [hs] using hr.symm
        simp [hv]
    rw [hcyc, if_neg hflag]
    rfl
  · intro hb h0
    refine ⟨by rw [hr, hb]; rfl, ?_⟩
    have hflag : (bodySuccess body).getD r0.Success = true := by rw [hb]; simpa using h0
    rw [hcyc, if_pos hflag]
  · exact Prod.ext (Decode_fst_of_ne_null body r0 hnull) herr

/-- Witness for C5: the body `{"msg": "", "success": false}` decodes to the reply
{"", false}; entered with stored reply {"x", true}, the cycle issues the GET
and then one POST carrying the buffer. -/
theorem cycle_decoded_reply_witness :
    decodeFresh (hubReply "" false) = (some { Message := "", Success := false }, false) ∧
    (cycle "hub:4444" "10.0.0.5" ":4444"
        { pi := some { Message := "x", Success := true }, b := [1, 2] }
        { get := .response 200 (hubReply "" false), postRead := 2 }).1 =
      [statusRequest "hub:4444" "10.0.0.5" ":4444",
       { Method := "POST"
         URL := "http://" ++ "hub:4444" ++ "/grid/register"
         Header := [("User-Agent", "selenoid"), ("Content-Type", "application/json")]
         Body := [1, 2] }] :=
  ⟨by decide,
   (cycle_decoded_reply "hub:4444" "10.0.0.5" ":4444" { Message := "x", Success := true }
      [1, 2] (hubReply "" false) 2 { Message := "", Success := false } (by decide)).2.1 rfl
      (Or.inl (by decide))⟩

/-- C6: a cycle whose status GET fails outright, or returns a status code other
than 200 (so in particular any non-success code), issues the GET and no POST,
leaves the stored reply and the buffer unchanged, and the loop stays RUNNING. -/
theorem cycle_failed_status_check (hubAddress localAddress listen : String) (s : LoopState)
    (t : Tick)
    (hfail : t.get = .error ∨ ∃ StatusCode body, t.get = .response StatusCode body ∧
      StatusCode ≠ 200) :
    step hubAddress localAddress listen (.RUNNING s) (.tick t) =
      ([statusRequest hubAddress localAddress listen], .RUNNING s) ∧
    (∀ req ∈ (step hubAddress localAddress listen (.RUNNING s) (.tick t)).1,
      req.Method ≠ "POST") := by
  have hstep : step hubAddress localAddress listen (.RUNNING s) (.tick t) =
      ([statusRequest hubAddress localAddress listen], .RUNNING s) := by
    rcases hfail with h | ⟨code, body, h, hne⟩
    · simp [step, cycle, h]
    · simp [step, cycle, h, hne]
  refine ⟨hstep, ?_⟩
  rw [hstep]
  intro req hreq
  simp only [List.mem_singleton] at hreq
  subst hreq
  show "GET" ≠ "POST"
  decide

/-- Witness for C6: a network error and a 503 answer. -/
theorem cycle_failed_status_check_witness :
    step "hub:4444" "10.0.0.5" ":4444"
        (.RUNNING { pi := some { Message := "", Success := false }, b := [1, 2] })
        (.tick { get := .error, postRead := 2 }) =
      ([statusRequest "hub:4444" "10.0.0.5" ":4444"],
        .RUNNING { pi := some { Message := "", Success := false }, b := [1, 2] }) ∧
    step "hub:4444" "10.0.0.5" ":4444"
        (.RUNNING { pi := some { Message := "", Success := false }, b := [1, 2] })
        (.tick { get := .response 503 (hubReply "" false), postRead := 2 }) =
      ([statusRequest "hub:4444" "10.0.0.5" ":4444"],
        .RUNNING { pi := some { Message := "", Success := false }, b := [1, 2] }) :=
  ⟨(cycle_failed_status_check "hub:4444" "10.0.0.5" ":4444" _ _ (Or.inl rfl)).1,
   (cycle_failed_status_check "hub:4444" "10.0.0.5" ":4444" _ _
      (Or.inr ⟨503, hubReply "" false, rfl, by decide⟩)).1⟩

theorem run_PANICKED (hubAddress localAddress listen : String) (es : List Event) :
    run hubAddress localAddress listen .PANICKED es = ([], .PANICKED) := by
  induction es with
  | nil => rfl
  | cons e es ih => simp [run, step, ih]

theorem run_sig (hubAddress localAddress listen : String) (c : Control) (es : List Event) :
    (run hubAddress localAddress listen c (.sig :: es)).1 = [] ∧
    (∀ st, (run hubAddress localAddress listen c (.sig :: es)).2 ≠ .RUNNING st) ∧
    (∀ st, c = .RUNNING st →
      (run hubAddress localAddress listen c (.sig :: es)).2 = .STOPPED) := by
  cases c with
  | RUNNING s => simp [run, step, run_STOPPED]
  | STOPPED => simp [run, step, run_STOPPED]
  | PANICKED => simp [run, step, run_PANICKED]

/-- C8: `hubRegistration` enters its loop RUNNING; a shutdown event taken in the
`select` moves RUNNING to STOPPED; STOPPED is terminal; and whatever wake-ups
`post` follow a shutdown event, the requests issued are exactly those issued
before it, so no status GET and no registration POST is issued after the
transition to STOPPED. -/
theorem shutdown_is_terminal (encode : RegistrationRequest → Bytes)
    (GOOS outboundIP hubAddress listen : String) (ri : RegistrationInfo)
    (s : LoopState) (c : Control) (pre post : List Event) :
    hubRegistration encode GOOS outboundIP hubAddress listen ri [] =
      ([], .RUNNING (initialState encode GOOS outboundIP ri)) ∧
    step hubAddress outboundIP listen (.RUNNING s) .sig = ([], .STOPPED) ∧
    (∀ e, step hubAddress outboundIP listen .STOPPED e = ([], .STOPPED)) ∧
    run hubAddress outboundIP listen .STOPPED post = ([], .STOPPED) ∧
    (run hubAddress outboundIP listen c (pre ++ .sig :: post)).1 =
      (run hubAddress outboundIP listen c pre).1 ∧
    (∀ st, (run hubAddress outboundIP listen c (pre ++ .sig :: post)).2 ≠ .RUNNING st) ∧
    (∀ st, (run hubAddress outboundIP listen c pre).2 = .RUNNING st →
      (run hubAddress outboundIP listen c (pre ++ .sig :: post)).2 = .STOPPED) := by
  have hsig := run_sig hubAddress outboundIP listen
    (run hubAddress outboundIP listen c pre).2 post
  refine ⟨rfl, rfl, ?_, run_STOPPED _ _ _ post, ?_, ?_, ?_⟩
  · intro e
    cases e <;> rfl
  · rw [run_append]
    simp [hsig.1]
  · rw [run_append]
    exact hsig.2.1
  · rw [run_append]
    exact hsig.2.2

/-- Witness for C8: two cycles, a shutdown, then two more ticks that are never
served. -/
theorem shutdown_is_terminal_witness :
    (run "hub:4444" "10.0.0.5" ":4444"
        (.RUNNING { pi := some { Message := "", Success := false }, b := [1, 2] })
        [.tick { get := .error, postRead := 0 },
         .tick { get := .response 200 (hubReply "" true), postRead := 0 }]).2 =
      .RUNNING { pi := some { Message := "", Success := true }, b := [1, 2] } ∧
    (run "hub:4444" "10.0.0.5" ":4444"
        (.RUNNING { pi := some { Message := "", Success := false }, b := [1, 2] })
        ([.tick { get := .error, postRead := 0 },
          .tick { get := .response 200 (hubReply "" true), postRead := 0 }] ++
         .sig :: [.tick { get := .response 200 (hubReply "" false), postRead := 0 },
                  .tick { get := .error, postRead := 0 }])).2 = .STOPPED :=
  ⟨by decide,
   (shutdown_is_terminal (fun _ => []) "linux" "10.0.0.5" "hub:4444" ":4444"
      (infoListening ":4444") { pi := none, b := [] }
      (.RUNNING { pi := some { Message := "", Success := false }, b := [1, 2] })
      [.tick { get := .error, postRead := 0 },
       .tick { get := .response 200 (hubReply "" true), postRead := 0 }]
      [.tick { get := .response 200 (hubReply "" false), postRead := 0 },
       .tick { get := .error, postRead := 0 }]).2.2.2.2.2.2
      { pi := some { Message := "", Success := true }, b := [1, 2] } (by decide)⟩

theorem cycle_ne_none_of_decode (hubAddress localAddress listen : String) (s : LoopState)
    (t : Tick) (StatusCode : Nat) (body : Option Json) (r : HubProxyInfo)
    (hget : t.get = .response StatusCode body) (hdec : (Decode body s.pi).1 = some r) :
    (cycle hubAddress localAddress listen s t).2 ≠ none := by
  simp only [cycle, hget]
  by_cases hcode : StatusCode = 200
  · simp only [hcode, if_true, hdec]
    split <;> simp
  · simp [hcode]

/-- C7, the code at the failing input: a cycle started with a non-nil stored
reply panics exactly when the status GET returns 200 with the JSON value `null`
as body (`Decode(&pi)` then sets `pi` to nil and `pi.Success` dereferences it);
in particular `hubRegistration` panics in its first cycle when the hub answers
the first status query with `null`, after issuing only the GET. -/
theorem null_reply_panics (encode : RegistrationRequest → Bytes)
    (GOOS outboundIP hubAddress listen : String) (ri : RegistrationInfo)
    (r : HubProxyInfo) (b : Bytes) (t : Tick) (postRead : Nat) (later : List Event) :
    ((cycle hubAddress outboundIP listen { pi := some r, b := b } t).2 = none ↔
      t.get = .response 200 (some .null)) ∧
    hubRegistration encode GOOS outboundIP hubAddress listen ri
        (.tick { get := .response 200 (some .null), postRead := postRead } :: later) =
      ([statusRequest hubAddress outboundIP listen], .PANICKED) := by
  constructor
  · constructor
    · intro hnone
      rcases t with ⟨get, n⟩
      cases get with
      | error => simp [cycle] at hnone
      | response code body =>
        by_cases hcode : code = 200
        · subst hcode
          cases body with
          | none => exact absurd hnone (cycle_ne_none_of_decode _ _ _ _ _ _ _ _ rfl rfl)
          | some j =>
            cases j with
            | null => rfl
            | bool v => exact absurd hnone (cycle_ne_none_of_decode _ _ _ _ _ _ _ _ rfl rfl)
            | number v => exact absurd hnone (cycle_ne_none_of_decode _ _ _ _ _ _ _ _ rfl rfl)
            | string v => exact absurd hnone (cycle_ne_none_of_decode _ _ _ _ _ _ _ _ rfl rfl)
            | array v => exact absurd hnone (cycle_ne_none_of_decode _ _ _ _ _ _ _ _ rfl rfl)
            | object v => exact absurd hnone (cycle_ne_none_of_decode _ _ _ _ _ _ _ _ rfl rfl)
        · simp [cycle, hcode] at hnone
    · intro hget
      simp [cycle, hget, Decode]
  · simp [hubRegistration, run, step, cycle, Decode, run_PANICKED]

theorem cycle_keeps_flag_false (hubAddress localAddress listen : String) (s : LoopState)
    (t : Tick) (r : HubProxyInfo) (hpi : s.pi = some r) (hr : r.Success = false)
    (ht : tickSuccess t ≠ some true) :
    ∀ s', (cycle hubAddress localAddress listen s t).2 = some s' →
      ∃ r', s'.pi = some r' ∧ r'.Success = false := by
  obtain ⟨pi, b⟩ := s
  obtain ⟨get, postRead⟩ := t
  dsimp only at hpi
  subst hpi
  intro s' hs'
  cases get with
  | error =>
    simp only [cycle, Option.some.injEq] at hs'
    exact ⟨r, by rw [← hs'], hr⟩
  | response code body =>
    by_cases hcode : code = 200
    · subst hcode
      have hts : bodySuccess body ≠ some true := by simpa [tickSuccess] using ht
      by_cases hnull : ∀ j, body = some j → j ≠ .null
      · have hflag : (bodySuccess body).getD r.Success = false := by
          cases hb : bodySuccess body with
          | none => simpa using hr
          | some v =>
            cases v with
            | false => rfl
            | true => exact absurd hb hts
        rw [cycle_of_ne_null _ _ _ _ _ _ _ hnull, hflag] at hs'
        simp only [Bool.false_eq_true, if_false, Option.some.injEq] at hs'
        exact ⟨_, by rw [← hs'], rfl⟩
      · have hb : body = some .null := by
          by_contra hne
          apply hnull
          intro j hj hn
          exact hne (by rw [hj, hn])
        subst hb
        simp [cycle, Decode] at hs'
    · simp only [cycle, if_neg hcode, Option.some.injEq] at hs'
      exact ⟨r, by rw [← hs'], hr⟩

theorem run_keeps_flag_false (hubAddress localAddress listen : String) (es : List Event)
    (s : LoopState) (r : HubProxyInfo) (hpi : s.pi = some r) (hr : r.Success = false)
    (hticks : ∀ t, Event.tick t ∈ es → tickSuccess t ≠ some true) :
    ∀ st, (run hubAddress localAddress listen (.RUNNING s) es).2 = .RUNNING st →
      ∃ r', st.pi = some r' ∧ r'.Success = false := by
  induction es generalizing s r with
  | nil =>
    intro st hst
    simp only [run, Control.RUNNING.injEq] at hst
    exact ⟨r, by rw [← hst]; exact hpi, hr⟩
  | cons e es ih =>
    intro st hst
    cases e with
    | sig => exact absurd hst ((run_sig hubAddress localAddress listen _ es).2.1 st)
    | tick t =>
      have ht := hticks t (by simp)
      have hrest : ∀ t', Event.tick t' ∈ es → tickSuccess t' ≠ some true :=
        fun t' h' => hticks t' (by simp [h'])
      have hc := cycle_keeps_flag_false hubAddress localAddress listen s t r hpi hr ht
      simp only [run, step] at hst
      cases hcy : cycle hubAddress localAddress listen s t with
      | mk reqs next =>
        rw [hcy] at hst hc
        cases next with
        | none =>
          simp only [run_PANICKED] at hst
          exact absurd hst (by simp)
        | some s' =>
          obtain ⟨r', hpi', hr'⟩ := hc s' rfl
          exact ih s' r' hpi' hr' hrest st hst

/-- Counterexample to C9 as stated.  With stored reply {"", false}, the body
`{"success": true, "msg": 5}` makes `Decode` return an error (the number 5 cannot
be stored in the string field), yet the stored flag is true afterwards; the
cycle then issues no POST, although the flag left by the previous cycles was
false. -/
theorem decode_failure_counterexample :
    Decode (some (.object [("success", .bool true), ("msg", .number "5")]))
        (some { Message := "", Success := false }) =
      (some { Message := "", Success := true }, true) ∧
    cycle "hub:4444" "10.0.0.5" ":4444"
        { pi := some { Message := "", Success := false }, b := [1, 2] }
        { get := .response 200
            (some (.object [("success", .bool true), ("msg", .number "5")])),
          postRead := 2 } =
      ([statusRequest "hub:4444" "10.0.0.5" ":4444"],
        some { pi := some { Message := "", Success := true }, b := [1, 2] }) := by
  decide

/-- C9 (amended): when the status GET returns 200 and `Decode` fails, each field
of the stored reply for which the body is a JSON object with a well-typed member
takes the value of the last such member, and every other field keeps its value.
So the stored reply is unchanged when the body is not a JSON object (not
well-formed JSON, or a JSON Boolean, number, string or array) and when it
carries no string `msg` and no Boolean `success` member.  The cycle registers or
not according to the flag the body carries, else the flag left by the previous
cycles: no POST if it is true, one POST if it is false.  The flag is false when
the loop starts and stays false as long as no 200 body carries `success` true. -/
theorem decode_failure_keeps_reply (hubAddress localAddress listen : String)
    (r : HubProxyInfo) (b : Bytes) (body : Option Json) (postRead : Nat)
    (hfail : (Decode body (some r)).2 = true) :
    (Decode body (some r)).1 =
      some { Message := (bodyMessage body).getD r.Message,
             Success := (bodySuccess body).getD r.Success } ∧
    ((∀ members, body ≠ some (.object members)) → (Decode body (some r)).1 = some r) ∧
    (bodyMessage body = none → bodySuccess body = none →
      (Decode body (some r)).1 = some r) ∧
    cycle hubAddress localAddress listen { pi := some r, b := b }
        { get := .response 200 body, postRead := postRead } =
      (if (bodySuccess body).getD r.Success = true then
        ([statusRequest hubAddress localAddress listen],
          some { pi := (Decode body (some r)).1, b := b })
       else
        ([statusRequest hubAddress localAddress listen, registerRequest hubAddress b],
          some { pi := (Decode body (some r)).1, b := b.drop postRead })) ∧
    (bodySuccess body = none →
      (cycle hubAddress localAddress listen { pi := some r, b := b }
        { get := .response 200 body, postRead := postRead }).1 =
        (if r.Success = true then [statusRequest hubAddress localAddress listen]
         else [statusRequest hubAddress localAddress listen,
               registerRequest hubAddress b])) ∧
    (∀ (encode : RegistrationRequest → Bytes) (GOOS outboundIP : String)
      (ri : RegistrationInfo),
      (initialState encode GOOS outboundIP ri).pi = some { Message := "", Success := false }) ∧
    (∀ (encode : RegistrationRequest → Bytes) (GOOS outboundIP : String)
      (ri : RegistrationInfo) (events : List Event),
      (∀ t, Event.tick t ∈ events → tickSuccess t ≠ some true) →
      ∀ st, (hubRegistration encode GOOS outboundIP hubAddress listen ri events).2 =
          .RUNNING st →
        ∃ r', st.pi = some r' ∧ r'.Success = false) := by
  have hnull := Decode_error_ne_null body r hfail
  have hdec := Decode_fst_of_ne_null body r hnull
  have hcyc := cycle_of_ne_null hubAddress localAddress listen r b body postRead hnull
  have hkeep : bodyMessage body = none → bodySuccess body = none →
      (Decode body (some r)).1 = some r := by
    intro hm hs
    rw [hdec, hm, hs]
    rfl
  refine ⟨hdec, ?_, hkeep, ?_, ?_, fun _ _ _ _ => rfl, ?_⟩
  · intro hnobj
    apply hkeep
    · cases body with
      | none => rfl
      | some j =>
        cases j with
        | object members => exact absurd rfl (hnobj members)
        | null => rfl
        | bool v => rfl
        | number v => rfl
        | string v => rfl
        | array v => rfl
    · cases body with
      | none => rfl
      | some j =>
        cases j with
        | object members => exact absurd rfl (hnobj members)
        | null => rfl
        | bool v => rfl
        | number v => rfl
        | string v => rfl
        | array v => rfl
  · rw [hcyc, hdec]
  · intro hs
    rw [hcyc, hs]
    cases hrs : r.Success <;> simp
  · intro encode GOOS outboundIP ri events hticks
    exact run_keeps_flag_false hubAddress outboundIP listen events
      (initialState encode GOOS outboundIP ri) { Message := "", Success := false } rfl rfl
      hticks

/-- Witness for C9: a body that is not JSON at all and a body that is a JSON
string leave the stored reply as it is; the body `{"success": true, "msg": 5}`
fails and stores the flag `true`; the body `{"msg": 5}` fails and stores
nothing. -/
theorem decode_failure_keeps_reply_witness :
    (Decode none (some { Message := "ok", Success := true })).1 =
      some { Message := "ok", Success := true } ∧
    (Decode (some (.string "down")) (some { Message := "ok", Success := true })).1 =
      some { Message := "ok", Success := true } ∧
    (Decode (some (.object [("success", .bool true), ("msg", .number "5")]))
        (some { Message := "", Success := false })).1 =
      some { Message := "", Success := true } ∧
    (Decode (some (.object [("msg", .number "5")]))
        (some { Message := "ok", Success := false })).1 =
      some { Message := "ok", Success := false } :=
  ⟨(decode_failure_keeps_reply "hub:4444" "10.0.0.5" ":4444"
      { Message := "ok", Success := true } [1, 2] none 2 rfl).2.1 (fun _ h => nomatch h),
   (decode_failure_keeps_reply "hub:4444" "10.0.0.5" ":4444"
      { Message := "ok", Success := true } [1, 2] (some (.string "down")) 2 rfl).2.1
      (fun _ h => nomatch h),
   (decode_failure_keeps_reply "hub:4444" "10.0.0.5" ":4444"
      { Message := "", Success := false } [1, 2]
      (some (.object [("success", .bool true), ("msg", .number "5")])) 2 (by decide)).1,
   (decode_failure_keeps_reply "hub:4444" "10.0.0.5" ":4444"
      { Message := "ok", Success := false } [1, 2]
      (some (.object [("msg", .number "5")])) 2 (by decide)).2.2.1 (by decide) (by decide)⟩

/-- C1, the code at the failing input: the hub answers two status queries with
200 and `success: false`, and the transport reads the whole body of the first
POST.  The first POST carries the serialized envelope, the second POST carries
an empty body, because reading the first request body consumed the buffer `b`.
So the second body differs from the serialized envelope whenever that is not
empty. -/
theorem second_registration_body_is_empty (encode : RegistrationRequest → Bytes)
    (GOOS outboundIP hubAddress listen : String) (ri : RegistrationInfo)
    (m1 m2 : String) (postRead : Nat) :
    hubRegistration encode GOOS outboundIP hubAddress listen ri
        [.tick { get := .response 200 (hubReply m1 false),
                 postRead := (encode (createRegistration GOOS outboundIP ri)).length },
         .tick { get := .response 200 (hubReply m2 false), postRead := postRead }] =
      ([statusRequest hubAddress outboundIP listen,
        registerRequest hubAddress (encode (createRegistration GOOS outboundIP ri)),
        statusRequest hubAddress outboundIP listen,
        registerRequest hubAddress []],
       .RUNNING { pi := some { Message := m2, Success := false }, b := [] }) ∧
    (encode (createRegistration GOOS outboundIP ri) ≠ [] →
      (registerRequest hubAddress []).Body ≠ encode (createRegistration GOOS outboundIP ri)) := by
  constructor
  · simp [hubRegistration, run, step, cycle, Decode_hubReply, initialState]
  · intro hne heq
    exact hne heq.symm

/-- Witness for C1 with the serialized envelope `{}` followed by a newline. -/
theorem second_registration_body_is_empty_witness :
    (hubRegistration (fun _ => [123, 125, 10]) "linux" "10.0.0.5" "hub:4444" ":4444"
        (infoListening ":4444")
        [.tick { get := .response 200 (hubReply "" false), postRead := 3 },
         .tick { get := .response 200 (hubReply "" false), postRead := 3 }]).1 =
      [statusRequest "hub:4444" "10.0.0.5" ":4444",
       registerRequest "hub:4444" [123, 125, 10],
       statusRequest "hub:4444" "10.0.0.5" ":4444",
       registerRequest "hub:4444" []] ∧
    (registerRequest "hub:4444" []).Body ≠ [123, 125, 10] :=
  ⟨congrArg Prod.fst
      (second_registration_body_is_empty (fun _ => [123, 125, 10]) "linux" "10.0.0.5"
        "hub:4444" ":4444" (infoListening ":4444") "" "" 3).1,
   (second_registration_body_is_empty (fun _ => [123, 125, 10]) "linux" "10.0.0.5"
        "hub:4444" ":4444" (infoListening ":4444") "" "" 3).2 (by decide)⟩

/-- C2, the code at the failing input: with listen address "0.0.0.0:4444" and
resolved address "10.0.0.5" the status GET asks for id "10.0.0.50.0.0.0:4444",
while the envelope built for the same inputs has ID "10.0.0.5:4444".  The two
agree when the listen address has an empty host part, ":" followed by a port
without `:`, `[`, `]`. -/
theorem status_query_id_mismatch :
    (hubRegistration (fun _ => []) "linux" "10.0.0.5" "hub:4444" "0.0.0.0:4444"
        (infoListening "0.0.0.0:4444") [.tick { get := .error, postRead := 0 }]).1 =
      [{ Method := "GET", URL := "http://hub:4444/grid/api/proxy?id=10.0.0.50.0.0.0:4444",
         Header := [], Body := [] }] ∧
    statusQueryID "10.0.0.5" "0.0.0.0:4444" = "10.0.0.50.0.0.0:4444" ∧
    (createRegistration "linux" "10.0.0.5"
        (infoListening "0.0.0.0:4444")).Configuration.ID = "10.0.0.5:4444" ∧
    statusQueryID "10.0.0.5" "0.0.0.0:4444" ≠
      (createRegistration "linux" "10.0.0.5" (infoListening "0.0.0.0:4444")).Configuration.ID ∧
    (∀ GOOS a p : String, (∀ c ∈ p.data, c ≠ ':' ∧ c ≠ '[' ∧ c ≠ ']') →
      statusQueryID a (":" ++ p) =
        (createRegistration GOOS a (infoListening (":" ++ p))).Configuration.ID) := by
  refine ⟨by decide, by decide, by decide, by decide, ?_⟩
  intro GOOS a p hp
  have hsplit : SplitHostPort (":" ++ p) = ("", p, none) := by
    have := SplitHostPort_host_colon_port "" p (by simp) hp
    simpa using this
  rw [createRegistration_ID]
  show a ++ (":" ++ p) = a ++ ":" ++ (SplitHostPort (":" ++ p)).2.1
  rw [hsplit, String.append_assoc]

end Hub
